import Mathlib

/-!
Verification development for the LADWP grid-intelligence anomaly pipeline.

Shallow embedding of the seasonal anomaly detection and future-forecast
scoring pipeline:
  * `engineerFeatures` embeds `AnomalyDetector.engineer_features`
    (src/models/anomaly_detector.py);
  * `suppressBatch` and `calcSeverity` embed the baseline suppression pass and
    the severity bucketing of
    `FutureAnomalyPredictor.predict_future_anomalies`
    (src/models/future_anomaly_predictor.py);
  * `analyzeDemandPatterns` / `getExpectedDemand` embed
    `BaselinePatterns` (src/models/baseline_patterns.py);
  * `trainMonthModel` / `trainAll` embed `MonthlyModelTrainer`
    (src/train_all_monthly_models.py).

Modelling conventions:
  * Python/pandas float scalars are modelled by `Cell`: a rational value,
    `NaN`, or a signed infinity.  `fillna(method=bfill/ffill)` replaces only
    `nan` cells, exactly as pandas does.
  * The rolling standard deviation is irrational (a square root), while every
    claim below concerns only equality or NaN-ness of feature values.  The
    `rolling_std` cell therefore carries the sample *variance* (the square of
    the code's value): `x ↦ x^2` is injective on nonnegatives, so equality and
    NaN-ness of the embedded column coincide with those of the code's column.
    The z-score cell is likewise the same fixed function of
    (value, rolling mean, represented std), preserving equality and NaN-ness.
  * The cyclical encodings `hour_sin/hour_cos/dow_sin/dow_cos` are fixed
    functions of the `hour` and `day_of_week` columns, which the embedded
    feature row carries verbatim; since all claims concern equality of feature
    values row by row, the transcendental sine/cosine values are represented
    by those determining columns.
-/

/-- A pandas scalar: a (rational) number, `NaN`, or a signed infinity.
`NaN` arises from `diff`/`pct_change` on the first row, `0/0` in
`pct_change`, and a rolling std over fewer than two samples; `±inf` arises
from `pct_change` against a zero previous value. -/
inductive Cell where
  | val : ℚ → Cell
  | nan : Cell
  | pinf : Cell
  | ninf : Cell
deriving DecidableEq, Repr

/-- The timestamp fields the pipeline extracts with the pandas `.dt`
accessors: `t` is the absolute position on the time axis (in hours, used
only for ordering/contiguity), and `hour`, `dow`, `day`, `month`, `week`
are the values of `.dt.hour`, `.dt.dayofweek`, `.dt.day`, `.dt.month`
and `.dt.isocalendar().week`. -/
structure Ts where
  t : ℤ
  hour : ℕ
  dow : ℕ
  day : ℕ
  month : ℕ
  week : ℕ
deriving DecidableEq, Repr

/-- One input point of a demand series: a timestamp and a `demand_mw` value. -/
structure RawPoint where
  ts : Ts
  value : ℚ
deriving DecidableEq, Repr

/-- Default point used with `List.getD` (never read at in-range indices). -/
def dRaw : RawPoint := ⟨⟨0, 0, 0, 0, 0, 0⟩, 0⟩

/-! ### List statistics (pandas `mean`, `std`, `min`, `max`, `quantile`) -/

/-- Mean of a list of rationals (only used on nonempty lists). -/
def listMean (l : List ℚ) : ℚ := l.sum / l.length

/-- Sample variance (pandas `std(ddof=1)` squared). -/
def listVar (l : List ℚ) : ℚ :=
  (l.map (fun x => (x - listMean l) ^ 2)).sum / ((l.length : ℚ) - 1)

/-- Minimum of a list (pandas `min`; `NaN` on empty input). -/
def minCellOf (l : List ℚ) : Cell :=
  match l with
  | [] => Cell.nan
  | x :: xs => Cell.val (xs.foldl min x)

/-- Maximum of a list (pandas `max`; `NaN` on empty input). -/
def maxCellOf (l : List ℚ) : Cell :=
  match l with
  | [] => Cell.nan
  | x :: xs => Cell.val (xs.foldl max x)

/-- Mean as a cell (`NaN` on empty input, as in pandas). -/
def meanCellOf (l : List ℚ) : Cell :=
  match l with
  | [] => Cell.nan
  | _ => Cell.val (listMean l)

/-- Sample standard deviation as a cell, represented by the variance
(see the header note); `NaN` with fewer than two samples, as pandas
`std(ddof=1)` is. -/
def stdCellOf (l : List ℚ) : Cell :=
  if l.length < 2 then Cell.nan else Cell.val (listVar l)

/-- Linear-interpolation quantile (pandas `Series.quantile`, default
interpolation), `NaN` on empty input. -/
def quantileCell (q : ℚ) (l : List ℚ) : Cell :=
  match l.mergeSort (fun a b => decide (a ≤ b)) with
  | [] => Cell.nan
  | x :: xs =>
    let s := x :: xs
    let pos : ℚ := q * ((s.length : ℚ) - 1)
    let lo : ℕ := (Int.floor pos).toNat
    let hi : ℕ := (Int.ceil pos).toNat
    let frac : ℚ := pos - (lo : ℚ)
    Cell.val (s.getD lo 0 + (s.getD hi 0 - s.getD lo 0) * frac)

/-- Median (pandas `median` = 0.5 quantile). -/
def medianCell (l : List ℚ) : Cell := quantileCell (1 / 2) l

/-- Rounding to two decimals, used where the source calls `.round(2)`.
(The source rounds IEEE floats; exact rational half-up rounding stands in
for it.  No claim compares the numeric value of a rounded statistic.) -/
def round2 (x : ℚ) : ℚ := (Int.floor (x * 100 + 1 / 2) : ℚ) / 100

/-- `round2` lifted to cells (`NaN`/`inf` round to themselves, as in pandas). -/
def roundCell2 (c : Cell) : Cell :=
  match c with
  | Cell.val v => Cell.val (round2 v)
  | c => c

/-! ### Rolling windows, rate of change, z-score
(`AnomalyDetector.engineer_features`, src/models/anomaly_detector.py:109-122) -/

/-- The trailing rolling window of width `w` ending at index `i`
(pandas `rolling(window=w, min_periods=1)`: the up-to-`w` values at
indices `max 0 (i+1-w) .. i`). -/
def trailingWin (w : ℕ) (vs : List ℚ) (i : ℕ) : List ℚ :=
  (vs.take (i + 1)).drop (i + 1 - w)

/-- `{target}_rolling_mean` at index `i`. -/
def meanCellAt (w : ℕ) (vs : List ℚ) (i : ℕ) : Cell :=
  meanCellOf (trailingWin w vs i)

/-- `{target}_rolling_std` at index `i` (variance-represented, header note). -/
def stdCellAt (w : ℕ) (vs : List ℚ) (i : ℕ) : Cell :=
  stdCellOf (trailingWin w vs i)

/-- `{target}_rolling_min` at index `i`. -/
def minCellAt (w : ℕ) (vs : List ℚ) (i : ℕ) : Cell :=
  minCellOf (trailingWin w vs i)

/-- `{target}_rolling_max` at index `i`. -/
def maxCellAt (w : ℕ) (vs : List ℚ) (i : ℕ) : Cell :=
  maxCellOf (trailingWin w vs i)

/-- `{target}_diff` at index `i` (pandas `diff`: `NaN` on the first row). -/
def diffCellAt (vs : List ℚ) (i : ℕ) : Cell :=
  if i = 0 then Cell.nan
  else Cell.val (vs.getD i 0 - vs.getD (i - 1) 0)

/-- `{target}_pct_change` at index `i` (pandas `pct_change`:
`(cur - prev)/prev`; `NaN` on the first row and for `0/0`, `±inf` for a
zero previous value and a nonzero current one). -/
def pctCellAt (vs : List ℚ) (i : ℕ) : Cell :=
  if i = 0 then Cell.nan
  else
    let prev := vs.getD (i - 1) 0
    let cur := vs.getD i 0
    if prev = 0 then
      if cur = 0 then Cell.nan
      else if 0 < cur then Cell.pinf else Cell.ninf
    else Cell.val ((cur - prev) / prev)

/-- The `1e-8` guard added to the rolling std in the z-score. -/
def zEps : ℚ := 1 / 100000000

/-- `{target}_zscore` at index `i`:
`(value - rolling_mean) / (rolling_std + 1e-8)`; `NaN` whenever the rolling
std is `NaN` (NaN propagates through arithmetic in pandas). -/
def zCellAt (w : ℕ) (vs : List ℚ) (i : ℕ) : Cell :=
  match stdCellAt w vs i with
  | Cell.val s => Cell.val ((vs.getD i 0 - listMean (trailingWin w vs i)) / (s + zEps))
  | _ => Cell.nan

/-! ### `fillna(method=bfill)` then `fillna(method=ffill)`
(src/models/anomaly_detector.py:125) -/

/-- Forward fill with an accumulator holding the last valid cell seen. -/
def ffillGo : Option Cell → List Cell → List Cell
  | _, [] => []
  | acc, Cell.nan :: cs =>
    (match acc with
     | some c => c
     | none => Cell.nan) :: ffillGo acc cs
  | _, c :: cs => c :: ffillGo (some c) cs

/-- pandas `fillna(method=ffill)`: each `NaN` takes the previous valid value. -/
def ffill (l : List Cell) : List Cell := ffillGo none l

/-- pandas `fillna(method=bfill)`: each `NaN` takes the next valid value. -/
def bfill (l : List Cell) : List Cell := (ffillGo none l.reverse).reverse

/-- The source's fill: backward fill, then forward fill. -/
def fillna (l : List Cell) : List Cell := ffill (bfill l)

/-! ### The engineered feature table -/

/-- One row of the table returned by `engineer_features`, keyed 1:1 to an
input point.  The cyclical sine/cosine encodings are fixed functions of the
`hour` and `day_of_week` columns carried here (header note). -/
structure FeatRow where
  ts : Ts
  value : ℚ
  hour : ℕ
  day_of_week : ℕ
  is_weekend : ℕ
  day_of_month : ℕ
  month : ℕ
  week_of_year : ℕ
  is_summer : ℕ
  is_winter : ℕ
  rolling_mean : Cell
  rolling_std : Cell
  rolling_min : Cell
  rolling_max : Cell
  diff : Cell
  pct_change : Cell
  zscore : Cell
deriving DecidableEq, Repr

/-- Default feature row used with `List.getD`. -/
def dRow : FeatRow :=
  ⟨⟨0, 0, 0, 0, 0, 0⟩, 0, 0, 0, 0, 0, 0, 0, 0, 0,
   Cell.nan, Cell.nan, Cell.nan, Cell.nan, Cell.nan, Cell.nan, Cell.nan⟩

/-- `is_weekend` column: `day_of_week ∈ {5, 6}`, as a 0/1 int. -/
def isWeekendOf (d : ℕ) : ℕ := if d = 5 ∨ d = 6 then 1 else 0

/-- `is_summer` column: `month ∈ {6,7,8,9}` (Jun-Sep), as a 0/1 int. -/
def isSummerOf (m : ℕ) : ℕ := if m = 6 ∨ m = 7 ∨ m = 8 ∨ m = 9 then 1 else 0

/-- `is_winter` column: `month ∈ {12,1,2}` (Dec-Feb), as a 0/1 int. -/
def isWinterOf (m : ℕ) : ℕ := if m = 12 ∨ m = 1 ∨ m = 2 then 1 else 0

/-- The rolling window the code uses for a demand series (24 points). -/
def demandWindow : ℕ := 24

/-- The rolling window the code uses for a 5-minute price series
(288 points = 24 hours). -/
def priceWindow : ℕ := 288

/-- The filled `rolling_mean` column of the engineered table. -/
def meanColF (w : ℕ) (input : List RawPoint) : List Cell :=
  fillna ((List.range input.length).map (meanCellAt w (input.map RawPoint.value)))

/-- The filled `rolling_std` column of the engineered table. -/
def stdColF (w : ℕ) (input : List RawPoint) : List Cell :=
  fillna ((List.range input.length).map (stdCellAt w (input.map RawPoint.value)))

/-- The filled `rolling_min` column of the engineered table. -/
def minColF (w : ℕ) (input : List RawPoint) : List Cell :=
  fillna ((List.range input.length).map (minCellAt w (input.map RawPoint.value)))

/-- The filled `rolling_max` column of the engineered table. -/
def maxColF (w : ℕ) (input : List RawPoint) : List Cell :=
  fillna ((List.range input.length).map (maxCellAt w (input.map RawPoint.value)))

/-- The filled `diff` column of the engineered table. -/
def diffColF (input : List RawPoint) : List Cell :=
  fillna ((List.range input.length).map (diffCellAt (input.map RawPoint.value)))

/-- The filled `pct_change` column of the engineered table. -/
def pctColF (input : List RawPoint) : List Cell :=
  fillna ((List.range input.length).map (pctCellAt (input.map RawPoint.value)))

/-- The filled `zscore` column of the engineered table. -/
def zColF (w : ℕ) (input : List RawPoint) : List Cell :=
  fillna ((List.range input.length).map (zCellAt w (input.map RawPoint.value)))

/-- Row `i` of the engineered feature table: the time features of the
`i`-th input point together with the `i`-th entry of each filled column. -/
def featRowAt (w : ℕ) (input : List RawPoint) (i : ℕ) : FeatRow :=
  let p := input.getD i dRaw
  { ts := p.ts
    value := p.value
    hour := p.ts.hour
    day_of_week := p.ts.dow
    is_weekend := isWeekendOf p.ts.dow
    day_of_month := p.ts.day
    month := p.ts.month
    week_of_year := p.ts.week
    is_summer := isSummerOf p.ts.month
    is_winter := isWinterOf p.ts.month
    rolling_mean := (meanColF w input).getD i Cell.nan
    rolling_std := (stdColF w input).getD i Cell.nan
    rolling_min := (minColF w input).getD i Cell.nan
    rolling_max := (maxColF w input).getD i Cell.nan
    diff := (diffColF input).getD i Cell.nan
    pct_change := (pctColF input).getD i Cell.nan
    zscore := (zColF w input).getD i Cell.nan }

/-- Embedding of `AnomalyDetector.engineer_features`
(src/models/anomaly_detector.py:78-127) over a series of points, with the
rolling window `w` as a parameter (the code picks `288` for `price` and `24`
otherwise).  Time features come from each row's own timestamp; rolling
statistics, rate of change and z-score are computed columnwise and the
remaining `NaN`s are filled by backward-fill then forward-fill.  One row per
input point, same order, no rows dropped. -/
def engineerFeatures (w : ℕ) (input : List RawPoint) : List FeatRow :=
  (List.range input.length).map (featRowAt w input)

theorem engineerFeatures_length (w : ℕ) (input : List RawPoint) :
    (engineerFeatures w input).length = input.length := by
  simp [engineerFeatures]

/-! ### Severity, prediction points, and the baseline suppression pass
(`FutureAnomalyPredictor.predict_future_anomalies`,
src/models/future_anomaly_predictor.py:178-221) -/

/-- The severity tiers of a prediction point. -/
inductive Severity where
  | normal
  | medium
  | high
  | critical
deriving DecidableEq, Repr

/-- The position of a severity tier in the order
normal < medium < high < critical. -/
def Severity.rank : Severity → ℕ
  | Severity.normal => 0
  | Severity.medium => 1
  | Severity.high => 2
  | Severity.critical => 3

/-- Embedding of the `calculate_severity` row function
(src/models/future_anomaly_predictor.py:184-192 and
src/scripts/generate_all_predictions.py:145-153): non-anomalies are
`normal`; anomalies are bucketed as `critical` above confidence 80,
`high` above 60, else `medium`. -/
def calcSeverity (isAnomaly : Bool) (confidence : ℚ) : Severity :=
  if !isAnomaly then Severity.normal
  else if 80 < confidence then Severity.critical
  else if 60 < confidence then Severity.high
  else Severity.medium

/-- `confidence = clip(|anomaly_score| * 100, 0, 100)`
(src/models/future_anomaly_predictor.py:180-181). -/
def confidenceOf (score : ℚ) : ℚ := min (max (|score| * 100) 0) 100

/-- One output row of the predictor: timestamp fields, forecast value,
and the anomaly columns added by the pipeline. -/
structure PredPoint where
  ts : Ts
  demand_mw : ℚ
  is_anomaly : Bool
  anomaly_score : ℚ
  confidence : ℚ
  severity : Severity
deriving DecidableEq, Repr

/-- Default prediction point used with `List.getD`. -/
def dPred : PredPoint := ⟨⟨0, 0, 0, 0, 0, 0⟩, 0, false, 0, 0, Severity.normal⟩

/-- The per-hour statistics dictionary returned by
`BaselinePatterns.get_expected_demand`; the suppression pass reads its
`mean` entry, which (coming from a pandas aggregation) is a `Cell`. -/
structure ExpStats where
  mean : Cell
deriving DecidableEq, Repr

/-- The baseline suppression of one flagged point
(src/models/future_anomaly_predictor.py:202-218).  `expected` is
`baseline.get_expected_demand` by hour; a point is only touched when it is
flagged, the lookup is truthy and the expected mean is positive, and the
anomaly flag is *removed* (severity reset to `normal`, confidence to 0)
when the deviation from the expected mean is below 30 percent relative
or below 800 MW absolute.  An expected mean of `NaN` or `-inf` fails the
`mean > 0` guard; a mean of `+inf` passes it but makes the deviation
infinite, so both removal conditions are false and the point is kept. -/
def suppressPoint (expected : ℕ → Option ExpStats) (p : PredPoint) : PredPoint :=
  if p.is_anomaly then
    match expected p.ts.hour with
    | none => p
    | some st =>
      match st.mean with
      | Cell.val m =>
        if 0 < m then
          let devMw := |p.demand_mw - m|
          let devPct := devMw / m * 100
          if devPct < 30 ∨ devMw < 800 then
            { p with is_anomaly := false, severity := Severity.normal, confidence := 0 }
          else p
        else p
      | Cell.pinf => p
      | _ => p
  else p

/-- The baseline suppression pass over a whole prediction batch
(src/models/future_anomaly_predictor.py:198-221: the loop runs over the
flagged rows and leaves every other row untouched, which is exactly a map
of `suppressPoint`). -/
def suppressBatch (expected : ℕ → Option ExpStats) (batch : List PredPoint) :
    List PredPoint :=
  batch.map (suppressPoint expected)

/-- Assembles one prediction point from an engineered feature row and the
external scorer's outputs for it (src/models/future_anomaly_predictor.py:
178-194): the flag is `prediction == -1`, the confidence is the clipped
absolute score, the severity is the confidence bucketing. -/
def mkPredPoint (r : FeatRow) (flagged : Bool) (score : ℚ) : PredPoint :=
  { ts := r.ts
    demand_mw := r.value
    is_anomaly := flagged
    anomaly_score := score
    confidence := confidenceOf score
    severity := calcSeverity flagged (confidenceOf score) }

/-- Embedding of the core of `predict_future_anomalies`
(src/models/future_anomaly_predictor.py:106-221) after the external data
fetches: concatenate `hist ++ fc`, engineer features once over the
concatenation, slice the engineered table back down to the forecast rows
by position (`iloc[len(hist):]`), score every sliced row with the loaded
model (`flagOf`/`scoreOf` stand for the external pickled scorer), and
apply the baseline suppression pass when a baseline is available.  The
code performs no timestamp-alignment validation between `hist` and `fc`. -/
def predictPipeline (w : ℕ) (flagOf : FeatRow → Bool) (scoreOf : FeatRow → ℚ)
    (baseline : Option (ℕ → Option ExpStats)) (hist fc : List RawPoint) :
    List PredPoint :=
  let feats := engineerFeatures w (hist ++ fc)
  let sliced := feats.drop hist.length
  let pts := sliced.map (fun r => mkPredPoint r (flagOf r) (scoreOf r))
  match baseline with
  | some expected => suppressBatch expected pts
  | none => pts

/-- Modelled from the spec: the contiguity requirement of spec §4.4 step 1
and the `TimestampAlignmentError` condition of spec §7 (the historical tail
immediately precedes the forecast with no gap larger than the feature
window and no overlap).  No such check exists anywhere in the source; this
spec-side predicate exists only to state that the code accepts inputs
violating it. -/
def contiguousSpec (w : ℕ) (hist fc : List RawPoint) : Bool :=
  match hist.getLast?, fc.head? with
  | some lastH, some firstF =>
    decide (lastH.ts.t < firstF.ts.t ∧ firstF.ts.t - lastH.ts.t ≤ (w : ℤ))
  | _, _ => false

/-! ### Baseline patterns (`BaselinePatterns`, src/models/baseline_patterns.py) -/

/-- A key of the in-memory `patterns` dictionary.  `learn_patterns` builds
the hourly map with Python `int` keys; after a save/load round-trip through
JSON every key is a string.  The two are distinct dictionary keys, which is
what this sum type records. -/
inductive JKey where
  | intK : ℕ → JKey
  | strK : String → JKey
deriving DecidableEq, Repr

/-- The full per-group statistics of the `overall` and `hourly` entries of
`analyze_demand_patterns` (mean, std, min, max, median, p25, p75, p95). -/
structure StatsFull where
  mean : Cell
  std : Cell
  min : Cell
  max : Cell
  median : Cell
  p25 : Cell
  p75 : Cell
  p95 : Cell
deriving DecidableEq, Repr

/-- The per-day-of-week statistics of `analyze_demand_patterns`
(mean, std, min, max, median only). -/
structure StatsDow where
  mean : Cell
  std : Cell
  min : Cell
  max : Cell
  median : Cell
deriving DecidableEq, Repr

/-- The weekday/weekend aggregate statistics (mean, std, median). -/
structure StatsWk where
  mean : Cell
  std : Cell
  median : Cell
deriving DecidableEq, Repr

/-- Full statistics of a list of values, unrounded (the `overall` entry). -/
def statsFullOf (l : List ℚ) : StatsFull :=
  { mean := meanCellOf l
    std := stdCellOf l
    min := minCellOf l
    max := maxCellOf l
    median := medianCell l
    p25 := quantileCell (1 / 4) l
    p75 := quantileCell (3 / 4) l
    p95 := quantileCell (19 / 20) l }

/-- Full statistics rounded to two decimals (the hourly groups go through
`.round(2)` before being stored). -/
def statsFullRounded (l : List ℚ) : StatsFull :=
  let s := statsFullOf l
  { mean := roundCell2 s.mean
    std := roundCell2 s.std
    min := roundCell2 s.min
    max := roundCell2 s.max
    median := roundCell2 s.median
    p25 := roundCell2 s.p25
    p75 := roundCell2 s.p75
    p95 := roundCell2 s.p95 }

/-- Per-day-of-week statistics, rounded to two decimals. -/
def statsDowOf (l : List ℚ) : StatsDow :=
  { mean := roundCell2 (meanCellOf l)
    std := roundCell2 (stdCellOf l)
    min := roundCell2 (minCellOf l)
    max := roundCell2 (maxCellOf l)
    median := roundCell2 (medianCell l) }

/-- Weekday/weekend statistics, rounded to two decimals. -/
def statsWkOf (l : List ℚ) : StatsWk :=
  { mean := roundCell2 (meanCellOf l)
    std := roundCell2 (stdCellOf l)
    median := roundCell2 (medianCell l) }

/-- The distinct observed values of an extractor over a point list,
ascending — the group keys a pandas `groupby` yields, in its key order. -/
def observedKeys (pts : List RawPoint) (f : RawPoint → ℕ) : List ℕ :=
  ((pts.map f).dedup).mergeSort (fun a b => decide (a ≤ b))

/-- The demand values of the group of points with extractor value `k`. -/
def groupVals (pts : List RawPoint) (f : RawPoint → ℕ) (k : ℕ) : List ℚ :=
  (pts.filter (fun p => f p = k)).map RawPoint.value

/-- The `patterns['demand']['hourly']` map: one entry per observed hour,
keyed by the Python `int` hour (src/models/baseline_patterns.py:204-216). -/
def hourlyPairs (pts : List RawPoint) : List (JKey × StatsFull) :=
  (observedKeys pts (fun p => p.ts.hour)).map
    (fun h => (JKey.intK h, statsFullRounded (groupVals pts (fun p => p.ts.hour) h)))

/-- `dow_names[d]` (src/models/baseline_patterns.py:219). -/
def dowName (d : ℕ) : String :=
  ["Monday", "Tuesday", "Wednesday", "Thursday", "Friday", "Saturday",
   "Sunday"].getD d ""

/-- The `patterns['demand']['day_of_week']` map, keyed by weekday name. -/
def dowPairs (pts : List RawPoint) : List (JKey × StatsDow) :=
  (observedKeys pts (fun p => p.ts.dow)).map
    (fun d => (JKey.strK (dowName d), statsDowOf (groupVals pts (fun p => p.ts.dow) d)))

/-- `peak_hours`: the five observed hours with the largest rounded mean
(`hourly.nlargest(5, 'mean')`; `mergeSort` is stable, matching pandas'
first-come order among ties).  A `NaN` mean cannot occur in a nonempty
group; `cellLeB` places non-values last, which is never exercised. -/
def cellLeB : Cell → Cell → Bool
  | Cell.val a, Cell.val b => decide (b ≤ a)
  | Cell.val _, _ => true
  | _, _ => false

/-- Top-5 peak hours by hourly mean demand. -/
def peakHours (pts : List RawPoint) : List ℕ :=
  (((hourlyPairs pts).mergeSort (fun a b => cellLeB a.2.mean b.2.mean)).take 5).filterMap
    (fun e => match e.1 with
      | JKey.intK h => some h
      | JKey.strK _ => none)

/-- The errors a `BaselinePatterns` call can surface.  `keyError k` is the
Python `KeyError: k` that `weekend_patterns.loc[k, ...]` raises when the
weekday (`k = 0`) or weekend (`k = 1`) group is empty.  `insufficientData`
is modelled from the spec: the `InsufficientDataError` of spec §4.2/§7; no
code in the repository defines or raises it, and it exists here only so
its absence can be stated. -/
inductive PyErr where
  | keyError : ℕ → PyErr
  | insufficientData : PyErr
deriving DecidableEq, Repr

/-- The `patterns['demand']` dictionary built by
`analyze_demand_patterns` (src/models/baseline_patterns.py:176-261). -/
structure DemandPatterns where
  overall : StatsFull
  hourly : List (JKey × StatsFull)
  day_of_week : List (JKey × StatsDow)
  weekday : StatsWk
  weekend : StatsWk
  peak_hours : List ℕ
deriving DecidableEq, Repr

/-- The weekday (`is_weekend = 0`) group of a point list. -/
def weekdayVals (pts : List RawPoint) : List ℚ :=
  groupVals pts (fun p => isWeekendOf p.ts.dow) 0

/-- The weekend (`is_weekend = 1`) group of a point list. -/
def weekendVals (pts : List RawPoint) : List ℚ :=
  groupVals pts (fun p => isWeekendOf p.ts.dow) 1

/-- The record `analyze_demand_patterns` assembles when it completes. -/
def demandPatternsRaw (pts : List RawPoint) : DemandPatterns :=
  { overall := statsFullOf (pts.map RawPoint.value)
    hourly := hourlyPairs pts
    day_of_week := dowPairs pts
    weekday := statsWkOf (weekdayVals pts)
    weekend := statsWkOf (weekendVals pts)
    peak_hours := peakHours pts }

/-- Embedding of `BaselinePatterns.analyze_demand_patterns`
(src/models/baseline_patterns.py:176-261).  The overall/hourly/day-of-week
statistics tolerate an empty series (their cells just come out `NaN`), but
the weekend-vs-weekday block indexes `weekend_patterns.loc[0, 'mean']` and
`.loc[1, 'mean']`, which raises `KeyError: 0` (resp. `KeyError: 1`) when
the weekday (resp. weekend) group has no rows — in particular on every
empty input.  No `InsufficientDataError` exists in the source. -/
def analyzeDemandPatterns (pts : List RawPoint) : Except PyErr DemandPatterns :=
  if weekdayVals pts = [] then Except.error (PyErr.keyError 0)
  else if weekendVals pts = [] then Except.error (PyErr.keyError 1)
  else Except.ok (demandPatternsRaw pts)

/-- Embedding of the demand half of `BaselinePatterns.learn_patterns`
(src/models/baseline_patterns.py:286-331): load the store, analyze demand
patterns (any exception propagates), assemble the surrounding dictionary
and persist it.  The persistence and the optional price half are external
I/O; the value this yields for the `'demand'` entry is exactly
`analyze_demand_patterns`'s result. -/
def learnPatternsDemand (store : List RawPoint) : Except PyErr DemandPatterns :=
  analyzeDemandPatterns store

/-- Embedding of `BaselinePatterns.get_expected_demand`
(src/models/baseline_patterns.py:366-375): look up `str(hour)` in the
hourly map and fall back to the overall statistics when the key is
absent. -/
def getExpectedDemand (dp : DemandPatterns) (hour : ℕ) : StatsFull :=
  match dp.hourly.find? (fun e => e.1 = JKey.strK (toString hour)) with
  | some e => e.2
  | none => dp.overall

/-! ### The monthly model trainer
(`MonthlyModelTrainer`, src/train_all_monthly_models.py) -/

/-- The lowercase month names indexing the twelve models. -/
def monthNames : List String :=
  ["january", "february", "march", "april", "may", "june",
   "july", "august", "september", "october", "november", "december"]

/-- The feature columns of the generic demand detector
(src/models/anomaly_detector.py:227-232): cyclical/seasonal flags, the raw
value and the rate-of-change features only — the rolling statistics and the
z-score are deliberately excluded because they compare across seasons. -/
def genericDemandFeatureCols : List String :=
  ["hour_sin", "hour_cos", "dow_sin", "dow_cos", "is_weekend",
   "month", "week_of_year", "is_summer", "is_winter",
   "demand_mw",
   "demand_mw_diff", "demand_mw_pct_change"]

/-- The feature columns of the month-specific trainer
(src/train_all_monthly_models.py:105-111): the generic set *plus* the
rolling mean, rolling std and z-score, included "since we're training on
same-month data". -/
def monthlyFeatureCols : List String :=
  ["hour_sin", "hour_cos", "dow_sin", "dow_cos", "is_weekend",
   "month", "week_of_year", "is_summer", "is_winter",
   "demand_mw",
   "demand_mw_rolling_mean", "demand_mw_rolling_std",
   "demand_mw_diff", "demand_mw_pct_change", "demand_mw_zscore"]

/-- `MonthlyModelTrainer.load_month_data` (src/train_all_monthly_models.py:
52-83): every record of the store whose calendar month matches, any year,
in store (timestamp) order. -/
def loadMonthData (store : List RawPoint) (m : ℕ) : List RawPoint :=
  store.filter (fun p => p.ts.month = m)

/-- The persisted per-month artifact: model blob metadata
(src/train_all_monthly_models.py:158-172). -/
structure ModelArtifact where
  month : String
  month_number : ℕ
  feature_columns : List String
  n_samples : ℕ
  contamination : ℚ
  n_anomalies_detected : ℕ
  avg_demand : Cell
  std_demand : Cell
  min_demand : Cell
  max_demand : Cell
  model_type : String
deriving DecidableEq, Repr

/-- Embedding of `MonthlyModelTrainer.train_month_model`
(src/train_all_monthly_models.py:85-180).  With fewer than 100 records for
the month it logs and *returns* `False` — no exception is raised and no
artifact is persisted — modelled as `Except.ok none`.  Otherwise it
engineers features, fits the scaler and Isolation Forest (external
sklearn state), persists the artifact and returns `True`, modelled as
`Except.ok (some artifact)`.  The `Except.error` branch mirrors the
exception channel `train_all` catches; this function itself never uses
it.  `nAnoms` stands for the count the external scorer reports. -/
def trainMonthModel (store : List RawPoint) (m : ℕ) (contamination : ℚ)
    (nAnoms : ℕ) : Except String (Option ModelArtifact) :=
  let df := loadMonthData store m
  if df.length < 100 then Except.ok none
  else
    let vals := df.map RawPoint.value
    Except.ok (some
      { month := monthNames.getD (m - 1) ""
        month_number := m
        feature_columns := monthlyFeatureCols
        n_samples := df.length
        contamination := contamination
        n_anomalies_detected := nAnoms
        avg_demand := meanCellOf vals
        std_demand := stdCellOf vals
        min_demand := minCellOf vals
        max_demand := maxCellOf vals
        model_type := "month_specific" })

/-- Embedding of `MonthlyModelTrainer.train_all`
(src/train_all_monthly_models.py:182-230): for each of the twelve months,
record `"Success"` when `train_month_model` returns `True`, `"Failed"` when
it returns `False` (the insufficient-data outcome), and `"Error: " ++ e`
when it raises. -/
def trainAll (store : List RawPoint) (contamination : ℚ) (nAnoms : ℕ) :
    List (String × String) :=
  (List.range 12).map (fun k =>
    (monthNames.getD k "",
     match trainMonthModel store (k + 1) contamination nAnoms with
     | Except.ok (some _) => "Success"
     | Except.ok none => "Failed"
     | Except.error e => "Error: " ++ e))

/-! ## Helper lemmas -/

theorem getD_map_range {α : Type} (n i : ℕ) (f : ℕ → α) (d : α) (h : i < n) :
    (((List.range n).map f).getD i d) = f i := by
  rw [List.getD_eq_getElem?_getD, List.getElem?_map, List.getElem?_range h]
  rfl

theorem getD_map_range_ge {α : Type} (n i : ℕ) (f : ℕ → α) (d : α) (h : n ≤ i) :
    (((List.range n).map f).getD i d) = d := by
  rw [List.getD_eq_getElem?_getD, List.getElem?_map]
  rw [List.getElem?_eq_none (by simpa using h)]
  rfl

theorem ffillGo_length (acc : Option Cell) (l : List Cell) :
    (ffillGo acc l).length = l.length := by
  induction l generalizing acc with
  | nil => rfl
  | cons c cs ih =>
    cases c with
    | nan => simp [ffillGo, ih]
    | val q => simp [ffillGo, ih]
    | pinf => simp [ffillGo, ih]
    | ninf => simp [ffillGo, ih]

theorem bfill_length (l : List Cell) : (bfill l).length = l.length := by
  simp [bfill, ffillGo_length]

theorem fillna_length (l : List Cell) : (fillna l).length = l.length := by
  simp [fillna, ffill, ffillGo_length, bfill_length]

theorem ffillGo_getElem?_of_ne_nan (l : List Cell) :
    ∀ (acc : Option Cell) (i : ℕ) (c : Cell), l[i]? = some c → c ≠ Cell.nan →
      (ffillGo acc l)[i]? = some c := by
  induction l with
  | nil => intro acc i c h; simp at h
  | cons x xs ih =>
    intro acc i c h hc
    cases i with
    | zero =>
      simp at h
      subst h
      cases x with
      | nan => exact absurd rfl hc
      | val q => simp [ffillGo]
      | pinf => simp [ffillGo]
      | ninf => simp [ffillGo]
    | succ j =>
      simp at h
      cases x with
      | nan => simpa [ffillGo] using ih acc j c (by simpa using h) hc
      | val q => simpa [ffillGo] using ih (some (Cell.val q)) j c (by simpa using h) hc
      | pinf => simpa [ffillGo] using ih (some Cell.pinf) j c (by simpa using h) hc
      | ninf => simpa [ffillGo] using ih (some Cell.ninf) j c (by simpa using h) hc

theorem bfill_getElem?_of_ne_nan (l : List Cell) (i : ℕ) (c : Cell)
    (h : l[i]? = some c) (hc : c ≠ Cell.nan) : (bfill l)[i]? = some c := by
  have hi : i < l.length := by
    by_contra hge
    rw [List.getElem?_eq_none (by omega)] at h
    exact absurd h (by simp)
  have hrevlen : i < (ffillGo none l.reverse).length := by
    rw [ffillGo_length, List.length_reverse]; exact hi
  rw [bfill, List.getElem?_reverse hrevlen, ffillGo_length, List.length_reverse]
  apply ffillGo_getElem?_of_ne_nan _ _ _ c _ hc
  rw [List.getElem?_reverse (by simpa using by omega : l.length - 1 - i < l.length)]
  rw [show l.length - 1 - (l.length - 1 - i) = i by omega]
  exact h

theorem fillna_getElem?_of_ne_nan (l : List Cell) (i : ℕ) (c : Cell)
    (h : l[i]? = some c) (hc : c ≠ Cell.nan) : (fillna l)[i]? = some c :=
  ffillGo_getElem?_of_ne_nan (bfill l) none i c
    (bfill_getElem?_of_ne_nan l i c h hc) hc

/-- The fill never touches a non-`NaN` cell of a `range`-mapped column. -/
theorem fillna_map_range_getD (n k : ℕ) (f : ℕ → Cell) (hk : k < n)
    (hnn : f k ≠ Cell.nan) :
    (fillna ((List.range n).map f)).getD k Cell.nan = f k := by
  have h : ((List.range n).map f)[k]? = some (f k) := by
    rw [List.getElem?_map, List.getElem?_range hk]; rfl
  rw [List.getD_eq_getElem?_getD, fillna_getElem?_of_ne_nan _ _ _ h hnn]
  rfl

theorem ffillGo_all_nan (l : List Cell) (h : ∀ c ∈ l, c = Cell.nan) :
    ffillGo none l = l := by
  induction l with
  | nil => rfl
  | cons x xs ih =>
    have hx : x = Cell.nan := h x (by simp)
    subst hx
    simp only [ffillGo]
    rw [ih (fun c hc => h c (by simp [hc]))]

theorem fillna_all_nan (l : List Cell) (h : ∀ c ∈ l, c = Cell.nan) :
    fillna l = l := by
  have hb : bfill l = l := by
    rw [bfill, ffillGo_all_nan _ (fun c hc => h c (by simpa using hc))]
    exact List.reverse_reverse l
  rw [fillna, ffill, hb, ffillGo_all_nan l h]

/-- An all-`NaN` column reads `NaN` at every index even after the fill. -/
theorem fillna_map_range_getD_nan (n k : ℕ) (f : ℕ → Cell)
    (h : ∀ j, f j = Cell.nan) :
    (fillna ((List.range n).map f)).getD k Cell.nan = Cell.nan := by
  rw [fillna_all_nan _ (by intro c hc; simp at hc; obtain ⟨j, _, rfl⟩ := hc; exact h j)]
  rcases lt_or_le k n with hk | hk
  · rw [getD_map_range n k f _ hk]; exact h k
  · exact getD_map_range_ge n k f _ hk

/-! ## Suppression pass lemmas -/

theorem suppressPoint_flag_mono (expected : ℕ → Option ExpStats) (p : PredPoint)
    (h : (suppressPoint expected p).is_anomaly = true) : p.is_anomaly = true := by
  by_cases hp : p.is_anomaly
  · exact hp
  · simpa [suppressPoint, hp] using h

theorem suppressPoint_idem (expected : ℕ → Option ExpStats) (p : PredPoint) :
    suppressPoint expected (suppressPoint expected p) = suppressPoint expected p := by
  by_cases hp : p.is_anomaly
  · cases hE : expected p.ts.hour with
    | none => simp [suppressPoint, hp, hE]
    | some st =>
      cases hm : st.mean with
      | val m =>
        by_cases hm0 : 0 < m
        · by_cases hc : |p.demand_mw - m| / m * 100 < 30 ∨ |p.demand_mw - m| < 800
          · simp [suppressPoint, hp, hE, hm, hm0, hc]
          · simp [suppressPoint, hp, hE, hm, hm0, hc]
        · simp [suppressPoint, hp, hE, hm, hm0]
      | nan => simp [suppressPoint, hp, hE, hm]
      | pinf => simp [suppressPoint, hp, hE, hm]
      | ninf => simp [suppressPoint, hp, hE, hm]
  · simp [suppressPoint, hp]

theorem suppressBatch_getD (expected : ℕ → Option ExpStats) (batch : List PredPoint)
    (i : ℕ) (h : i < batch.length) :
    (suppressBatch expected batch).getD i dPred =
      suppressPoint expected (batch.getD i dPred) := by
  have hb : batch[i]? = some batch[i] := List.getElem?_eq_getElem h
  simp [suppressBatch, List.getD_eq_getElem?_getD, List.getElem?_map, hb]

/-! ## Claim theorems -/

/-- C2: the baseline suppression pass only ever changes a point's
`is_anomaly` flag from true to false, never from false to true, and
applying the pass a second time to its own output leaves the batch
unchanged (the pass is idempotent). -/
theorem suppression_one_directional_and_idempotent
    (expected : ℕ → Option ExpStats) (batch : List PredPoint) :
    (∀ i : ℕ, ((suppressBatch expected batch).getD i dPred).is_anomaly = true →
       (batch.getD i dPred).is_anomaly = true) ∧
    suppressBatch expected (suppressBatch expected batch) =
      suppressBatch expected batch := by
  constructor
  · intro i h
    rcases lt_or_le i batch.length with hi | hi
    · rw [suppressBatch_getD expected batch i hi] at h
      exact suppressPoint_flag_mono expected _ h
    · rw [List.getD_eq_default] at h
      · simpa [dPred] using h
      · simpa [suppressBatch] using hi
  · simp only [suppressBatch, List.map_map]
    exact List.map_congr_left (fun p _ => suppressPoint_idem expected p)

/-- Witness for C2 at a concrete batch: a flagged point close to the
baseline mean is suppressed, the flag only moves true→false, and a second
application of the pass changes nothing. -/
theorem suppression_one_directional_and_idempotent_witness :
    (((suppressBatch (fun _ => some ⟨Cell.val 2000⟩)
        [⟨⟨0, 18, 3, 1, 11, 45⟩, 2100, true, -(1/2), 50, Severity.medium⟩]).getD 0
          dPred).is_anomaly = true →
      (([⟨⟨0, 18, 3, 1, 11, 45⟩, 2100, true, -(1/2), 50,
          Severity.medium⟩] : List PredPoint).getD 0 dPred).is_anomaly = true) ∧
    suppressBatch (fun _ => some ⟨Cell.val 2000⟩)
        (suppressBatch (fun _ => some ⟨Cell.val 2000⟩)
          [⟨⟨0, 18, 3, 1, 11, 45⟩, 2100, true, -(1/2), 50, Severity.medium⟩]) =
      suppressBatch (fun _ => some ⟨Cell.val 2000⟩)
        [⟨⟨0, 18, 3, 1, 11, 45⟩, 2100, true, -(1/2), 50, Severity.medium⟩] :=
  ⟨(suppression_one_directional_and_idempotent (fun _ => some ⟨Cell.val 2000⟩)
      [⟨⟨0, 18, 3, 1, 11, 45⟩, 2100, true, -(1/2), 50, Severity.medium⟩]).1 0,
   (suppression_one_directional_and_idempotent (fun _ => some ⟨Cell.val 2000⟩)
      [⟨⟨0, 18, 3, 1, 11, 45⟩, 2100, true, -(1/2), 50, Severity.medium⟩]).2⟩

/-- C3: a flagged point with a positive baseline mean for its hour keeps
its anomaly flag if and only if its value deviates from that mean by at
least 30 percent relative AND at least 800 MW absolute; failing either
threshold removes the flag. -/
theorem suppression_keep_iff (expected : ℕ → Option ExpStats) (p : PredPoint)
    (st : ExpStats) (m : ℚ)
    (hflag : p.is_anomaly = true)
    (hexp : expected p.ts.hour = some st)
    (hmean : st.mean = Cell.val m)
    (hpos : 0 < m) :
    ((suppressPoint expected p).is_anomaly = true) ↔
      (30 ≤ |p.demand_mw - m| / m * 100 ∧ 800 ≤ |p.demand_mw - m|) := by
  by_cases hc : |p.demand_mw - m| / m * 100 < 30 ∨ |p.demand_mw - m| < 800
  · have hres : (suppressPoint expected p).is_anomaly = false := by
      simp [suppressPoint, hflag, hexp, hmean, hpos, hc]
    rw [hres]
    simp only [Bool.false_eq_true, false_iff, not_and]
    intro h1 h2
    rcases hc with h | h <;> linarith
  · have hres : suppressPoint expected p = p := by
      simp [suppressPoint, hflag, hexp, hmean, hpos, hc]
    rw [hres, hflag]
    push_neg at hc
    simpa using hc

/-- Witness for C3 at a concrete flagged point: an evening value of
3000 MW against an expected hourly mean of 2000 MW deviates by 1000 MW
(50 percent), satisfying both thresholds, so the flag is kept. -/
theorem suppression_keep_iff_witness :
    ((suppressPoint (fun _ => some ⟨Cell.val 2000⟩)
        ⟨⟨0, 18, 3, 1, 11, 45⟩, 3000, true, -(1/2), 50,
          Severity.medium⟩).is_anomaly = true) ↔
      (30 ≤ |(3000 : ℚ) - 2000| / 2000 * 100 ∧ 800 ≤ |(3000 : ℚ) - 2000|) :=
  suppression_keep_iff (fun _ => some ⟨Cell.val 2000⟩)
    ⟨⟨0, 18, 3, 1, 11, 45⟩, 3000, true, -(1/2), 50, Severity.medium⟩
    ⟨Cell.val 2000⟩ 2000 rfl rfl rfl (by norm_num)

/-- C4 counterexample: an anomalous point at confidence 50 is bucketed
`medium`, while a non-anomalous point at the strictly larger confidence 90
is bucketed `normal` — a strictly lower tier, so severity is not monotonic
in confidence alone across arbitrary flag/confidence combinations. -/
theorem severity_not_monotone_counterexample :
    (50 : ℚ) < 90 ∧
    calcSeverity true 50 = Severity.medium ∧
    calcSeverity false 90 = Severity.normal ∧
    (calcSeverity false 90).rank < (calcSeverity true 50).rank := by
  refine ⟨by norm_num, by decide, by decide, by decide⟩

theorem calcSeverity_true_mono (c1 c2 : ℚ) (h : c1 ≤ c2) :
    (calcSeverity true c1).rank ≤ (calcSeverity true c2).rank := by
  unfold calcSeverity
  by_cases h80 : 80 < c1
  · have h80b : 80 < c2 := lt_of_lt_of_le h80 h
    simp [h80, h80b]
  · by_cases h60 : 60 < c1
    · have h60b : 60 < c2 := lt_of_lt_of_le h60 h
      by_cases h80b : 80 < c2 <;> simp [h80, h60, h60b, h80b, Severity.rank]
    · by_cases h80b : 80 < c2 <;> by_cases h60b : 60 < c2 <;>
        simp [h80, h60, h80b, h60b, Severity.rank]

/-- C4 amended: among prediction points whose anomaly flags are consistent
with one common confidence cutoff `T` (`is_anomaly ↔ confidence > T`, the
form a single scorer's threshold produces), the severity bucketing
`calcSeverity` is monotone in confidence: `c1 < c2` never maps the larger
confidence to a strictly lower tier. -/
theorem severity_monotone_of_common_threshold (T c1 c2 : ℚ) (a1 a2 : Bool)
    (h1 : a1 = true ↔ T < c1) (h2 : a2 = true ↔ T < c2) (hc : c1 < c2) :
    (calcSeverity a1 c1).rank ≤ (calcSeverity a2 c2).rank := by
  cases a1 with
  | false => simp [calcSeverity, Severity.rank]
  | true =>
    have hT1 : T < c1 := h1.mp rfl
    have ha2 : a2 = true := h2.mpr (lt_trans hT1 hc)
    subst ha2
    exact calcSeverity_true_mono c1 c2 (le_of_lt hc)

/-- Witness for C4 amended: with cutoff 60, a non-anomalous point at
confidence 50 and an anomalous point at confidence 70 are bucketed
`normal ≤ high` in rank order. -/
theorem severity_monotone_of_common_threshold_witness :
    (calcSeverity false 50).rank ≤ (calcSeverity true 70).rank :=
  severity_monotone_of_common_threshold 60 50 70 false true
    (by constructor <;> intro h <;> [exact absurd h (by norm_num); cases h])
    (by simp; norm_num) (by norm_num)

/-- C9 counterexample: the month-specific trainer's feature list *does*
contain the rolling mean, the rolling std and the z-score
(src/train_all_monthly_models.py:109-110), contradicting the claim that
the monthly trainer excludes the rolling-comparison features. -/
theorem monthly_features_include_rolling_counterexample :
    "demand_mw_rolling_mean" ∈ monthlyFeatureCols ∧
    "demand_mw_rolling_std" ∈ monthlyFeatureCols ∧
    "demand_mw_zscore" ∈ monthlyFeatureCols := by
  refine ⟨?_, ?_, ?_⟩ <;> simp [monthlyFeatureCols]

/-- C9 amended: it is the *generic* demand detector whose feature set
excludes the rolling mean, rolling std and z-score, keeping the raw value,
the diff/pct-change features and the cyclical/seasonal flags; the monthly
trainer uses that same set *plus* the three rolling-comparison features. -/
theorem feature_set_rolling_split :
    ("demand_mw_rolling_mean" ∉ genericDemandFeatureCols ∧
     "demand_mw_rolling_std" ∉ genericDemandFeatureCols ∧
     "demand_mw_zscore" ∉ genericDemandFeatureCols) ∧
    ("demand_mw" ∈ genericDemandFeatureCols ∧
     "demand_mw_diff" ∈ genericDemandFeatureCols ∧
     "demand_mw_pct_change" ∈ genericDemandFeatureCols ∧
     "hour_sin" ∈ genericDemandFeatureCols ∧
     "is_summer" ∈ genericDemandFeatureCols) ∧
    (genericDemandFeatureCols.all (fun c => decide (c ∈ monthlyFeatureCols)) = true) ∧
    ("demand_mw_rolling_mean" ∈ monthlyFeatureCols ∧
     "demand_mw_rolling_std" ∈ monthlyFeatureCols ∧
     "demand_mw_zscore" ∈ monthlyFeatureCols) := by
  refine ⟨⟨?_, ?_, ?_⟩, ⟨?_, ?_, ?_, ?_, ?_⟩, ?_, ?_, ?_, ?_⟩ <;>
    simp [genericDemandFeatureCols, monthlyFeatureCols]

/-- C10: `get_expected_demand` looks up `str(hour)` while
`analyze_demand_patterns` (hence `learn_patterns`) builds the in-memory
hourly map with Python `int` keys, so against in-memory patterns every
lookup misses the hourly map and returns the overall fallback — for every
input series and every hour; and a demand-patterns value surfaced by
`learn_patterns` is exactly the record `analyze_demand_patterns`
assembles. -/
theorem get_expected_demand_always_overall (pts : List RawPoint) (h : ℕ) :
    (getExpectedDemand (demandPatternsRaw pts) h = (demandPatternsRaw pts).overall) ∧
    (∀ dp : DemandPatterns, learnPatternsDemand pts = Except.ok dp →
       getExpectedDemand dp h = dp.overall) := by
  have hmain : getExpectedDemand (demandPatternsRaw pts) h =
      (demandPatternsRaw pts).overall := by
    unfold getExpectedDemand
    have hfind : (demandPatternsRaw pts).hourly.find?
        (fun e => e.1 = JKey.strK (toString h)) = none := by
      rw [List.find?_eq_none]
      intro x hx
      simp only [demandPatternsRaw, hourlyPairs, List.mem_map] at hx
      obtain ⟨h0, _, rfl⟩ := hx
      simp
    rw [hfind]
  refine ⟨hmain, fun dp hdp => ?_⟩
  have : dp = demandPatternsRaw pts := by
    unfold learnPatternsDemand analyzeDemandPatterns at hdp
    by_cases h1 : weekdayVals pts = []
    · simp [h1] at hdp
    · by_cases h2 : weekendVals pts = []
      · simp [h1, h2] at hdp
      · simp [h1, h2] at hdp
        exact hdp.symm
  rw [this]
  exact hmain

/-- Witness for C10 at a concrete two-point series (one weekday and one
weekend observation, so `learn_patterns` succeeds): the hour-5 lookup
returns the overall fallback even though hour 5 has an entry in the
(int-keyed) hourly map. -/
theorem get_expected_demand_always_overall_witness :
    getExpectedDemand
        (demandPatternsRaw
          [⟨⟨0, 5, 0, 1, 11, 45⟩, 100⟩, ⟨⟨24, 7, 6, 2, 11, 45⟩, 200⟩]) 5 =
      (demandPatternsRaw
          [⟨⟨0, 5, 0, 1, 11, 45⟩, 100⟩, ⟨⟨24, 7, 6, 2, 11, 45⟩, 200⟩]).overall :=
  (get_expected_demand_always_overall
      [⟨⟨0, 5, 0, 1, 11, 45⟩, 100⟩, ⟨⟨24, 7, 6, 2, 11, 45⟩, 200⟩] 5).2
    (demandPatternsRaw
      [⟨⟨0, 5, 0, 1, 11, 45⟩, 100⟩, ⟨⟨24, 7, 6, 2, 11, 45⟩, 200⟩]) rfl

/-- C8 counterexample: with fewer than 100 records for the month (here an
empty store), `train_month_model` does not raise any exception — it
*returns* the failure (`False`, modelled `Except.ok none`); in particular
the result is not an `InsufficientTrainingDataError` exception, and no
exception type of that name exists in the source. -/
theorem train_month_returns_not_raises_counterexample :
    trainMonthModel [] 11 (1/50) 0 = Except.ok none ∧
    trainMonthModel [] 11 (1/50) 0 ≠
      Except.error "InsufficientTrainingDataError" := by
  constructor
  · rfl
  · intro h
    cases h

/-- C8 amended: with fewer than 100 samples of the requested calendar
month, `train_month_model` returns the failure outcome (no exception is
raised, no model artifact is produced), and the per-month result recorded
by `train_all` is the string `"Failed"`, distinct both from `"Success"`
and from every `"Error: reason"` entry produced by the exception path. -/
theorem train_month_insufficient (store : List RawPoint) (m : ℕ)
    (c : ℚ) (nA : ℕ) (hm : 1 ≤ m) (hm12 : m ≤ 12)
    (h : (loadMonthData store m).length < 100) :
    trainMonthModel store m c nA = Except.ok none ∧
    (trainAll store c nA).getD (m - 1) ("", "") =
      (monthNames.getD (m - 1) "", "Failed") ∧
    ("Failed" : String) ≠ "Success" ∧
    (∀ e : String, ("Failed" : String) ≠ "Error: " ++ e) := by
  have h1 : trainMonthModel store m c nA = Except.ok none := by
    simp [trainMonthModel, h]
  refine ⟨h1, ?_, by decide, ?_⟩
  · rw [trainAll, getD_map_range 12 (m - 1) _ _ (by omega)]
    rw [show m - 1 + 1 = m by omega, h1]
  · intro e he
    have hl : ("Failed" : String).length = ("Error: " ++ e).length := by rw [he]
    rw [String.length_append] at hl
    have h7 : ("Error: " : String).length = 7 := by decide
    have h6 : ("Failed" : String).length = 6 := by decide
    omega

/-- Witness for C8 at the empty store and November: zero November records
is below the 100-sample minimum, the trainer returns the failure outcome
with no artifact, and `train_all` records `"Failed"` for November. -/
theorem train_month_insufficient_witness :
    trainMonthModel [] 11 (1/100) 0 = Except.ok none ∧
    (trainAll [] (1/100) 0).getD 10 ("", "") =
      (monthNames.getD 10 "", "Failed") ∧
    ("Failed" : String) ≠ "Success" ∧
    (∀ e : String, ("Failed" : String) ≠ "Error: " ++ e) :=
  train_month_insufficient [] 11 (1/100) 0 (by norm_num) (by norm_num)
    (by decide)

/-- C7 counterexample: building the baseline profile from an empty series
raises `KeyError: 0` (from `weekend_patterns.loc[0, 'mean']` on an empty
weekday group), not an `InsufficientDataError` — no error of that name
exists in the source. -/
theorem baseline_empty_keyerror_counterexample :
    analyzeDemandPatterns [] = Except.error (PyErr.keyError 0) ∧
    analyzeDemandPatterns [] ≠ Except.error PyErr.insufficientData := by
  constructor
  · rfl
  · intro h
    simp [analyzeDemandPatterns, weekdayVals, groupVals] at h

/-- C7 amended: building the baseline profile from an empty series never
silently returns a profile: the weekday/weekend aggregation lookup fails
with a `KeyError` (the accidental error class the code actually hits), so
no all-zero or NaN profile is ever handed back on empty input. -/
theorem baseline_empty_never_returns (pts : List RawPoint) (h : pts = []) :
    analyzeDemandPatterns pts = Except.error (PyErr.keyError 0) ∧
    (∀ dp : DemandPatterns, analyzeDemandPatterns pts ≠ Except.ok dp) ∧
    (∀ dp : DemandPatterns, learnPatternsDemand pts ≠ Except.ok dp) := by
  subst h
  refine ⟨rfl, ?_, ?_⟩ <;>
    · intro dp hc
      simp [learnPatternsDemand, analyzeDemandPatterns, weekdayVals,
        groupVals] at hc

/-- Witness for C7 at the empty series itself. -/
theorem baseline_empty_never_returns_witness :
    analyzeDemandPatterns [] = Except.error (PyErr.keyError 0) :=
  (baseline_empty_never_returns [] rfl).1

/-- C6 amended: the prediction pipeline performs no timestamp-alignment
validation at all: for every historical tail and forecast — contiguous or
not, overlapping or not — it concatenates them, engineers features, slices
by position and emits one prediction point per forecast point.  There is
no `TimestampAlignmentError` anywhere in the source. -/
theorem pipeline_no_alignment_check (w : ℕ) (flagOf : FeatRow → Bool)
    (scoreOf : FeatRow → ℚ) (baseline : Option (ℕ → Option ExpStats))
    (hist fc : List RawPoint) :
    (predictPipeline w flagOf scoreOf baseline hist fc).length = fc.length := by
  cases baseline <;>
    simp [predictPipeline, suppressBatch, engineerFeatures, List.length_drop]

/-- C6 counterexample: a historical tail whose last point carries the same
timestamp as the first forecast point (an overlap, hence not contiguous in
the spec's sense) is accepted without any error and produces a full
one-point output batch. -/
theorem pipeline_accepts_misaligned_counterexample :
    contiguousSpec demandWindow
        [⟨⟨0, 0, 0, 1, 11, 45⟩, 100⟩, ⟨⟨1, 1, 0, 1, 11, 45⟩, 200⟩]
        [⟨⟨1, 1, 0, 1, 11, 45⟩, 200⟩] = false ∧
    (predictPipeline demandWindow (fun _ => false) (fun _ => 0) none
        [⟨⟨0, 0, 0, 1, 11, 45⟩, 100⟩, ⟨⟨1, 1, 0, 1, 11, 45⟩, 200⟩]
        [⟨⟨1, 1, 0, 1, 11, 45⟩, 200⟩]).length = 1 := by
  exact ⟨rfl, rfl⟩

/-- C5 amended: `engineer_features` returns exactly one row per input
point, in the same order (each row carries its input point's timestamp and
value), for every input; the remaining `NaN`s are filled by backward-fill
then forward-fill, but a column with no valid entry at all — as `diff` and
`pct_change` (and the rolling std/z-score) are on a length-1 input — has
nothing to fill from and stays `NaN`. -/
theorem engineer_row_count_invariance (w : ℕ) (input : List RawPoint) :
    ((engineerFeatures w input).length = input.length) ∧
    (∀ i : ℕ, i < input.length →
       ((engineerFeatures w input).getD i dRow).ts = (input.getD i dRaw).ts ∧
       ((engineerFeatures w input).getD i dRow).value =
         (input.getD i dRaw).value) ∧
    (∀ p : RawPoint,
       ((engineerFeatures w [p]).getD 0 dRow).diff = Cell.nan ∧
       ((engineerFeatures w [p]).getD 0 dRow).pct_change = Cell.nan) := by
  refine ⟨by simp [engineerFeatures], fun i h => ?_, fun p => ⟨rfl, rfl⟩⟩
  rw [engineerFeatures, getD_map_range _ _ _ _ h]
  exact ⟨rfl, rfl⟩

/-- Witness for C5 at a concrete length-1 series and index 0: the row
keeps the input's timestamp and value. -/
theorem engineer_row_count_invariance_witness :
    ((engineerFeatures 24 [⟨⟨0, 0, 0, 1, 1, 1⟩, 10⟩]).getD 0 dRow).ts =
      (([⟨⟨0, 0, 0, 1, 1, 1⟩, 10⟩] : List RawPoint).getD 0 dRaw).ts ∧
    ((engineerFeatures 24 [⟨⟨0, 0, 0, 1, 1, 1⟩, 10⟩]).getD 0 dRow).value =
      (([⟨⟨0, 0, 0, 1, 1, 1⟩, 10⟩] : List RawPoint).getD 0 dRaw).value :=
  (engineer_row_count_invariance 24 [⟨⟨0, 0, 0, 1, 1, 1⟩, 10⟩]).2.1 0
    (by norm_num)

/-- C5 counterexample: for a length-1 input the `diff`, `pct_change`,
rolling-std and z-score features of the single row are `NaN` even after
the backward/forward fill (the whole column is `NaN`, so neither fill has
a value to propagate), contradicting "every feature column is a number,
not NaN, even for a length-1 input". -/
theorem engineer_length1_nan_counterexample :
    ((engineerFeatures demandWindow
        [⟨⟨0, 0, 5, 15, 11, 46⟩, 2500⟩]).getD 0 dRow).diff = Cell.nan ∧
    ((engineerFeatures demandWindow
        [⟨⟨0, 0, 5, 15, 11, 46⟩, 2500⟩]).getD 0 dRow).pct_change = Cell.nan ∧
    ((engineerFeatures demandWindow
        [⟨⟨0, 0, 5, 15, 11, 46⟩, 2500⟩]).getD 0 dRow).rolling_std = Cell.nan ∧
    ((engineerFeatures demandWindow
        [⟨⟨0, 0, 5, 15, 11, 46⟩, 2500⟩]).getD 0 dRow).zscore = Cell.nan :=
  ⟨rfl, rfl, rfl, rfl⟩

/-! ## Rolling-window shift lemmas for the concatenation claim (C1) -/

theorem trailingWin_shift (w : ℕ) (vp v : List ℚ) (i : ℕ) (hw : w ≤ i + 1) :
    trailingWin w (vp ++ v) (vp.length + i) = trailingWin w v i := by
  unfold trailingWin
  rw [show vp.length + i + 1 = vp.length + (i + 1) by omega, List.take_append (i + 1),
    show vp.length + (i + 1) - w = vp.length + (i + 1 - w) by omega,
    List.drop_append (i + 1 - w)]

theorem trailingWin_length (w : ℕ) (vs : List ℚ) (i : ℕ) (hi : i < vs.length)
    (hw : w ≤ i + 1) : (trailingWin w vs i).length = w := by
  simp only [trailingWin, List.length_drop, List.length_take]
  omega

theorem trailingWin_ne_nil (w : ℕ) (vs : List ℚ) (i : ℕ) (hi : i < vs.length)
    (hw : 1 ≤ w) : trailingWin w vs i ≠ [] := by
  apply List.ne_nil_of_length_pos
  simp only [trailingWin, List.length_drop, List.length_take]
  omega

theorem getD_append_left_shift {α : Type} (vp vA : List α) (i : ℕ) (d : α) :
    (vp ++ vA).getD (vp.length + i) d = vA.getD i d := by
  rw [List.getD_eq_getElem?_getD, List.getElem?_append_right (by omega),
    List.getD_eq_getElem?_getD, show vp.length + i - vp.length = i by omega]

theorem meanCellAt_shift (w : ℕ) (vp vA : List ℚ) (i : ℕ) (hw : w ≤ i + 1) :
    meanCellAt w (vp ++ vA) (vp.length + i) = meanCellAt w vA i := by
  unfold meanCellAt
  rw [trailingWin_shift w vp vA i hw]

theorem stdCellAt_shift (w : ℕ) (vp vA : List ℚ) (i : ℕ) (hw : w ≤ i + 1) :
    stdCellAt w (vp ++ vA) (vp.length + i) = stdCellAt w vA i := by
  unfold stdCellAt
  rw [trailingWin_shift w vp vA i hw]

theorem minCellAt_shift (w : ℕ) (vp vA : List ℚ) (i : ℕ) (hw : w ≤ i + 1) :
    minCellAt w (vp ++ vA) (vp.length + i) = minCellAt w vA i := by
  unfold minCellAt
  rw [trailingWin_shift w vp vA i hw]

theorem maxCellAt_shift (w : ℕ) (vp vA : List ℚ) (i : ℕ) (hw : w ≤ i + 1) :
    maxCellAt w (vp ++ vA) (vp.length + i) = maxCellAt w vA i := by
  unfold maxCellAt
  rw [trailingWin_shift w vp vA i hw]

theorem diffCellAt_shift (vp vA : List ℚ) (i : ℕ) (h1 : 1 ≤ i) :
    diffCellAt (vp ++ vA) (vp.length + i) = diffCellAt vA i := by
  have e1 : (vp ++ vA).getD (vp.length + i) 0 = vA.getD i 0 :=
    getD_append_left_shift vp vA i 0
  have e2 : (vp ++ vA).getD (vp.length + i - 1) 0 = vA.getD (i - 1) 0 := by
    rw [show vp.length + i - 1 = vp.length + (i - 1) by omega]
    exact getD_append_left_shift vp vA (i - 1) 0
  simp only [diffCellAt, e1, e2, if_neg (show ¬(vp.length + i = 0) by omega),
    if_neg (show ¬(i = 0) by omega)]

theorem pctCellAt_shift (vp vA : List ℚ) (i : ℕ) (h1 : 1 ≤ i) :
    pctCellAt (vp ++ vA) (vp.length + i) = pctCellAt vA i := by
  have e1 : (vp ++ vA).getD (vp.length + i) 0 = vA.getD i 0 :=
    getD_append_left_shift vp vA i 0
  have e2 : (vp ++ vA).getD (vp.length + i - 1) 0 = vA.getD (i - 1) 0 := by
    rw [show vp.length + i - 1 = vp.length + (i - 1) by omega]
    exact getD_append_left_shift vp vA (i - 1) 0
  simp only [pctCellAt, e1, e2, if_neg (show ¬(vp.length + i = 0) by omega),
    if_neg (show ¬(i = 0) by omega)]

theorem zCellAt_shift (w : ℕ) (vp vA : List ℚ) (i : ℕ) (hw : w ≤ i + 1) :
    zCellAt w (vp ++ vA) (vp.length + i) = zCellAt w vA i := by
  have e1 : (vp ++ vA).getD (vp.length + i) 0 = vA.getD i 0 :=
    getD_append_left_shift vp vA i 0
  unfold zCellAt
  rw [stdCellAt_shift w vp vA i hw, trailingWin_shift w vp vA i hw, e1]

/-! ## Non-NaN facts about the pre-fill cells (C1) -/

theorem meanCellOf_ne_nan (l : List ℚ) (h : l ≠ []) : meanCellOf l ≠ Cell.nan := by
  cases l with
  | nil => exact absurd rfl h
  | cons x xs => simp [meanCellOf]

theorem minCellOf_ne_nan (l : List ℚ) (h : l ≠ []) : minCellOf l ≠ Cell.nan := by
  cases l with
  | nil => exact absurd rfl h
  | cons x xs => simp [minCellOf]

theorem maxCellOf_ne_nan (l : List ℚ) (h : l ≠ []) : maxCellOf l ≠ Cell.nan := by
  cases l with
  | nil => exact absurd rfl h
  | cons x xs => simp [maxCellOf]

theorem stdCellOf_ne_nan (l : List ℚ) (h : 2 ≤ l.length) :
    stdCellOf l ≠ Cell.nan := by
  simp [stdCellOf, show ¬(l.length < 2) by omega]

theorem diffCellAt_ne_nan (vs : List ℚ) (i : ℕ) (h : i ≠ 0) :
    diffCellAt vs i ≠ Cell.nan := by
  simp [diffCellAt, h]

theorem pctCellAt_ne_nan (vs : List ℚ) (i : ℕ) (h : i ≠ 0)
    (hprev : vs.getD (i - 1) 0 ≠ 0) : pctCellAt vs i ≠ Cell.nan := by
  simp only [pctCellAt, if_neg h]
  rw [if_neg hprev]
  simp

theorem zCellAt_ne_nan (w : ℕ) (vs : List ℚ) (i : ℕ)
    (h : ¬(trailingWin w vs i).length < 2) : zCellAt w vs i ≠ Cell.nan := by
  unfold zCellAt stdCellAt stdCellOf
  rw [if_neg h]
  simp

theorem stdCellAt_one_nan (vs : List ℚ) (k : ℕ) : stdCellAt 1 vs k = Cell.nan := by
  unfold stdCellAt stdCellOf
  rw [if_pos]
  simp only [trailingWin, List.length_drop, List.length_take]
  omega

theorem zCellAt_one_nan (vs : List ℚ) (k : ℕ) : zCellAt 1 vs k = Cell.nan := by
  unfold zCellAt
  rw [stdCellAt_one_nan]

/-- A filled column of the concatenated series agrees with the filled
column of the suffix series at shifted indices, whenever the per-cell
function shifts and the cell is a valid (non-`NaN`) value. -/
theorem colF_shift (g : List ℚ → ℕ → Cell) (pfxPts A : List RawPoint) (i : ℕ)
    (hi : i < A.length)
    (hshift : g ((pfxPts ++ A).map RawPoint.value) (pfxPts.length + i)
       = g (A.map RawPoint.value) i)
    (hnn : g (A.map RawPoint.value) i ≠ Cell.nan) :
    (fillna ((List.range (pfxPts ++ A).length).map
        (g ((pfxPts ++ A).map RawPoint.value)))).getD (pfxPts.length + i)
      Cell.nan =
    (fillna ((List.range A.length).map (g (A.map RawPoint.value)))).getD i
      Cell.nan := by
  rw [fillna_map_range_getD _ _ _ (by simp [List.length_append]; omega)
      (by rw [hshift]; exact hnn),
    fillna_map_range_getD _ _ _ hi hnn, hshift]

/-- Row `pfx.length + i` of the feature table of `pfx ++ A` equals row `i`
of the feature table of `A`, for rows with a full rolling window inside
`A` (`w ≤ i + 1`), a predecessor row (`1 ≤ i`), and a nonzero previous
value (so `pct_change` is not a fillable `NaN`). -/
theorem featRowAt_shift (w : ℕ) (pfxPts A : List RawPoint) (i : ℕ)
    (hw : 1 ≤ w) (hi : i < A.length) (hwi : w ≤ i + 1) (h1i : 1 ≤ i)
    (hprev : (A.map RawPoint.value).getD (i - 1) 0 ≠ 0) :
    featRowAt w (pfxPts ++ A) (pfxPts.length + i) = featRowAt w A i := by
  have hviA : i < (A.map RawPoint.value).length := by
    simpa using hi
  have hmap : (pfxPts ++ A).map RawPoint.value
      = pfxPts.map RawPoint.value ++ A.map RawPoint.value := List.map_append _ _ _
  have hplen : pfxPts.length = (pfxPts.map RawPoint.value).length :=
    (List.length_map _ _).symm
  have hpoint : (pfxPts ++ A).getD (pfxPts.length + i) dRaw = A.getD i dRaw :=
    getD_append_left_shift pfxPts A i dRaw
  have hmean : (meanColF w (pfxPts ++ A)).getD (pfxPts.length + i) Cell.nan
      = (meanColF w A).getD i Cell.nan := by
    unfold meanColF
    refine colF_shift (meanCellAt w) pfxPts A i hi ?_ ?_
    · rw [hmap, hplen]
      exact meanCellAt_shift w _ _ i hwi
    · exact meanCellOf_ne_nan _ (trailingWin_ne_nil w _ i hviA hw)
  have hmin : (minColF w (pfxPts ++ A)).getD (pfxPts.length + i) Cell.nan
      = (minColF w A).getD i Cell.nan := by
    unfold minColF
    refine colF_shift (minCellAt w) pfxPts A i hi ?_ ?_
    · rw [hmap, hplen]
      exact minCellAt_shift w _ _ i hwi
    · exact minCellOf_ne_nan _ (trailingWin_ne_nil w _ i hviA hw)
  have hmax : (maxColF w (pfxPts ++ A)).getD (pfxPts.length + i) Cell.nan
      = (maxColF w A).getD i Cell.nan := by
    unfold maxColF
    refine colF_shift (maxCellAt w) pfxPts A i hi ?_ ?_
    · rw [hmap, hplen]
      exact maxCellAt_shift w _ _ i hwi
    · exact maxCellOf_ne_nan _ (trailingWin_ne_nil w _ i hviA hw)
  have hstd : (stdColF w (pfxPts ++ A)).getD (pfxPts.length + i) Cell.nan
      = (stdColF w A).getD i Cell.nan := by
    unfold stdColF
    by_cases hw2 : 2 ≤ w
    · refine colF_shift (stdCellAt w) pfxPts A i hi ?_ ?_
      · rw [hmap, hplen]
        exact stdCellAt_shift w _ _ i hwi
      · unfold stdCellAt
        apply stdCellOf_ne_nan
        rw [trailingWin_length w _ i hviA hwi]
        exact hw2
    · have hw1 : w = 1 := by omega
      subst hw1
      rw [fillna_map_range_getD_nan _ _ _ (stdCellAt_one_nan _),
        fillna_map_range_getD_nan _ _ _ (stdCellAt_one_nan _)]
  have hz : (zColF w (pfxPts ++ A)).getD (pfxPts.length + i) Cell.nan
      = (zColF w A).getD i Cell.nan := by
    unfold zColF
    by_cases hw2 : 2 ≤ w
    · refine colF_shift (zCellAt w) pfxPts A i hi ?_ ?_
      · rw [hmap, hplen]
        exact zCellAt_shift w _ _ i hwi
      · apply zCellAt_ne_nan
        rw [trailingWin_length w _ i hviA hwi]
        omega
    · have hw1 : w = 1 := by omega
      subst hw1
      rw [fillna_map_range_getD_nan _ _ _ (zCellAt_one_nan _),
        fillna_map_range_getD_nan _ _ _ (zCellAt_one_nan _)]
  have hdiff : (diffColF (pfxPts ++ A)).getD (pfxPts.length + i) Cell.nan
      = (diffColF A).getD i Cell.nan := by
    unfold diffColF
    refine colF_shift diffCellAt pfxPts A i hi ?_ ?_
    · rw [hmap, hplen]
      exact diffCellAt_shift _ _ i h1i
    · exact diffCellAt_ne_nan _ i (by omega)
  have hpct : (pctColF (pfxPts ++ A)).getD (pfxPts.length + i) Cell.nan
      = (pctColF A).getD i Cell.nan := by
    unfold pctColF
    refine colF_shift pctCellAt pfxPts A i hi ?_ ?_
    · rw [hmap, hplen]
      exact pctCellAt_shift _ _ i h1i
    · exact pctCellAt_ne_nan _ i (by omega) hprev
  simp only [featRowAt]
  rw [hpoint, hmean, hstd, hmin, hmax, hdiff, hpct, hz]

/-- C1 amended: engineering features over `historical_tail ++ forecast`
and slicing out the forecast rows yields exactly the rows those indices
would receive from engineering features over any longer series extending
the history (`pfx ++ historical_tail ++ forecast`) and slicing — provided
the tail has at least window-many points AND the tail/forecast values are
nonzero (with a zero-over-zero `pct_change`, the backward/forward
fill can copy a prefix-dependent value into the forecast slice, see the
counterexample). -/
theorem concat_slice_boundary_free (w : ℕ) (pfxPts tailPts fc : List RawPoint)
    (hw : 1 ≤ w) (hlen : w ≤ tailPts.length)
    (hnz : ∀ p ∈ tailPts ++ fc, p.value ≠ 0) :
    (engineerFeatures w (tailPts ++ fc)).drop tailPts.length =
      (engineerFeatures w (pfxPts ++ (tailPts ++ fc))).drop
        (pfxPts.length + tailPts.length) := by
  apply List.ext_getElem
  · simp only [List.length_drop, engineerFeatures_length, List.length_append]
    omega
  · intro j hj1 hj2
    have hjfc : j < fc.length := by
      simp only [List.length_drop, engineerFeatures_length,
        List.length_append] at hj1
      omega
    rw [List.getElem_drop, List.getElem_drop]
    simp only [engineerFeatures, List.getElem_map, List.getElem_range]
    rw [show pfxPts.length + tailPts.length + j
        = pfxPts.length + (tailPts.length + j) by omega]
    have hi : tailPts.length + j < (tailPts ++ fc).length := by
      simp only [List.length_append]
      omega
    refine (featRowAt_shift w pfxPts (tailPts ++ fc) (tailPts.length + j)
      hw hi (by omega) (by omega) ?_).symm
    have hlt : tailPts.length + j - 1
        < ((tailPts ++ fc).map RawPoint.value).length := by
      simp only [List.length_map, List.length_append]
      omega
    rw [List.getD_eq_getElem _ _ hlt]
    obtain ⟨p, hpA, hpv⟩ :=
      List.mem_map.mp (List.getElem_mem hlt)
    rw [← hpv]
    exact hnz p hpA

/-- Witness for C1 at a concrete window-2 series: a two-point tail
(values 10, 20), a one-point forecast (30) and a one-point earlier history
(5); the sliced forecast rows agree. -/
theorem concat_slice_boundary_free_witness :
    (engineerFeatures 2
        ([⟨⟨0, 0, 0, 1, 11, 45⟩, 10⟩, ⟨⟨1, 1, 0, 1, 11, 45⟩, 20⟩] ++
          [⟨⟨2, 2, 0, 1, 11, 45⟩, 30⟩])).drop 2 =
      (engineerFeatures 2
          ([⟨⟨-1, 23, 0, 1, 11, 45⟩, 5⟩] ++
            ([⟨⟨0, 0, 0, 1, 11, 45⟩, 10⟩, ⟨⟨1, 1, 0, 1, 11, 45⟩, 20⟩] ++
              [⟨⟨2, 2, 0, 1, 11, 45⟩, 30⟩]))).drop (1 + 2) :=
  concat_slice_boundary_free 2 [⟨⟨-1, 23, 0, 1, 11, 45⟩, 5⟩]
    [⟨⟨0, 0, 0, 1, 11, 45⟩, 10⟩, ⟨⟨1, 1, 0, 1, 11, 45⟩, 20⟩]
    [⟨⟨2, 2, 0, 1, 11, 45⟩, 30⟩] (by norm_num) (by norm_num) (by decide)

section
attribute [local semireducible] Rat.mul Rat.add Rat.sub Rat.inv

/-- C1 counterexample: with an all-zero tail and forecast (`pct_change` is
`0/0 = NaN` everywhere), the backward/forward fill imports a value
computed from the extra history into the forecast slice of the longer
series, while the slice of `tail ++ forecast` keeps `NaN` — so
concatenation-then-slice differs from engineering over the longer series,
even though the tail has at least window-many (2) points as the claim
requires. -/
theorem concat_slice_counterexample :
    (2 : ℕ) ≤ ([⟨⟨0, 0, 0, 1, 11, 45⟩, 0⟩,
        ⟨⟨1, 1, 0, 1, 11, 45⟩, 0⟩] : List RawPoint).length ∧
    (engineerFeatures 2
        ([⟨⟨0, 0, 0, 1, 11, 45⟩, 0⟩, ⟨⟨1, 1, 0, 1, 11, 45⟩, 0⟩] ++
          [⟨⟨2, 2, 0, 1, 11, 45⟩, 0⟩])).drop 2 ≠
      (engineerFeatures 2
          ([⟨⟨-1, 23, 0, 1, 11, 45⟩, 5⟩] ++
            ([⟨⟨0, 0, 0, 1, 11, 45⟩, 0⟩, ⟨⟨1, 1, 0, 1, 11, 45⟩, 0⟩] ++
              [⟨⟨2, 2, 0, 1, 11, 45⟩, 0⟩]))).drop (1 + 2) := by
  exact ⟨by decide, by decide⟩

end
